import Mathlib

/-!
Verification of the trust/credential subsystem of the face-attendance
service: the rotating RSA key manager (`server/utils/rsa_keys.py`) and the
JWT issuance/verification helpers (`server/utils/jwt_helper.py`).

The embedding is shallow:
* Python dicts used as JWT payloads become association lists with
  last-binding-wins lookup, mirroring the dict literal
  `{**payload, "iat": ..., "exp": ..., "iss": ..., "aud": ...}` whose later
  bindings shadow earlier ones.
* RSA key material is abstract: a key pair is identified by a natural
  number standing for the generated key object; a signature made with a
  private key verifies exactly against the public key of the same pair,
  which is what PyJWT's RS256 sign/verify gives for honestly generated
  key pairs.
* Timestamps are naturals (seconds).  `expires_in_minutes` contributes
  `ttl * 60` seconds to `exp`, matching `datetime.timedelta(minutes=...)`.
* `kid` strings are modelled as their lists of character code points, so
  that the concatenation performed by `_generate_kid` is literal.
* Exceptions become `Except`/`Option` results; PyJWT error classes become
  the `JwtErr` inductive.
-/

/-- JSON-ish claim values appearing in JWT payloads: strings and integer
timestamps (PyJWT serialises the injected `datetime` values to integer
epoch seconds, and returns integers from `jwt.decode`). -/
inductive JVal where
  | str (s : String)
  | num (n : Nat)
deriving DecidableEq

/-- A Python dict as used for JWT payloads: an association list where a
later binding for a key shadows an earlier one. -/
abbrev JDict := List (String × JVal)

/-- Dict lookup, last binding wins (Python dict update semantics). -/
def dictGet : JDict → String → Option JVal
  | [], _ => none
  | (k, v) :: rest, key =>
    match dictGet rest key with
    | some w => some w
    | none => if key = k then some v else none

/-- `d[k] = v` in dict-literal update position: the new binding is appended
and, with `dictGet`, shadows any earlier binding of `k`. -/
def dictSet (d : JDict) (k : String) (v : JVal) : JDict :=
  d ++ [(k, v)]

/-- The payload built by `create_signed_jwt`:
`{**payload, "iat": now, "exp": now + timedelta(minutes=ttl), "iss": "face-service", "aud": "core-service"}`.
The four injected bindings are applied after the caller's claims, in
source order, so they shadow caller-supplied values for those keys. -/
def buildPayload (claims : JDict) (now ttl : Nat) : JDict :=
  dictSet (dictSet (dictSet (dictSet claims "iat" (.num now))
    "exp" (.num (now + ttl * 60))) "iss" (.str "face-service")) "aud" (.str "core-service")

/-! ### Key identifiers (`_generate_kid`) -/

/-- A `kid` string, as its list of character code points. -/
abbrev Kid := List Nat

/-- Little-endian base-`b` digits of `n`, exactly `w` of them (the value
represented is `n % b ^ w`).  Used to model zero-padded fixed-width
numeric rendering: `strftime "%Y%m%d%H%M%S"` renders 14 decimal digits,
`secrets.token_hex(4)` renders 8 hexadecimal digits. -/
def fixedLE (b : Nat) : Nat → Nat → List Nat
  | 0, _ => []
  | w + 1, n => n % b :: fixedLE b w (n / b)

/-- Value of a little-endian digit list in base `b`. -/
def digitsVal (b : Nat) : List Nat → Nat
  | [] => 0
  | d :: ds => d + b * digitsVal b ds

/-- Big-endian (display order) fixed-width digits. -/
def fixedBE (b w n : Nat) : List Nat :=
  (fixedLE b w n).reverse

/-- Code point of the character Python prints for digit `d < 16`:
`'0'..'9'` then `'a'..'f'` (both `strftime` and `token_hex` emit
lowercase). -/
def digitCode (d : Nat) : Nat :=
  if d < 10 then 48 + d else 87 + d

/-- Code points of the literal `"face-service-"` prefixed to every kid. -/
def faceLabel : List Nat :=
  [102, 97, 99, 101, 45, 115, 101, 114, 118, 105, 99, 101, 45]

/-- `_generate_kid`: `f"face-service-{timestamp}-{random_suffix}"` where
`timestamp` is the UTC generation time as 14 decimal digits and
`random_suffix` is `secrets.token_hex(4)`, 8 hex digits.  The time and the
random draw are environment inputs, passed as naturals
(`ts < 10^14`, `rand < 16^8` for real inputs). -/
def _generate_kid (ts rand : Nat) : Kid :=
  faceLabel ++ (fixedBE 10 14 ts).map digitCode ++ [45] ++ (fixedBE 16 8 rand).map digitCode

/-! ### The key manager state (`RSAKeyManager`) -/

/-- One live key generation as the verifier sees it: the abstract key-pair
identity and its kid.  (Public and private halves of one generated pair
share the abstract identity.) -/
abbrev KeyEntry := Nat × Kid

/-- The mutable fields of `RSAKeyManager` that the claims concern:
`_current_private_key`/`_current_public_key`/`_current_kid` collapse to
one optional current entry (they are always set together under the lock),
and likewise `_previous_public_key`/`_previous_kid`. -/
structure ManagerState where
  current : Option KeyEntry
  previous : Option KeyEntry
deriving DecidableEq

/-- One successful key-generation event: the fresh abstract key identity
produced by `rsa.generate_private_key` plus the timestamp and random draw
consumed by `_generate_kid`. -/
structure Gen where
  key : Nat
  ts : Nat
  rand : Nat
deriving DecidableEq

/-- The key entry a generation event stores as `current`. -/
def pairOf (g : Gen) : KeyEntry :=
  (g.key, _generate_kid g.ts g.rand)

/-- The state mutation performed by a successful `generate_keys` call:
`if self._current_public_key:` push current into previous (discarding the
old previous), then overwrite current with the fresh pair and kid. -/
def applyGen (st : ManagerState) (g : Gen) : ManagerState :=
  { current := some (pairOf g)
    previous := if st.current.isSome then st.current else st.previous }

/-- `generate_keys` with its failure path: the argument is the outcome of
the key-generation step (`rsa.generate_private_key`, or the
`NotImplementedError` raised on the production branch).  On failure the
exception propagates before any field is written, so the state is
unchanged. -/
def generate_keys (st : ManagerState) (r : Except Unit Gen) : Except Unit ManagerState :=
  match r with
  | .error e => .error e
  | .ok g => .ok (applyGen st g)

/-- `__init__`: all key fields start as `None` and `generate_keys` runs
once with the initial generation event. -/
def initState (g : Gen) : ManagerState :=
  applyGen { current := none, previous := none } g

/-- `start_rotation`: `while True: await sleep(interval); self.generate_keys()`.
The list is the sequence of tick outcomes the environment produces.  The
loop body has no exception handler, so the first failing tick propagates
the exception and ends the task; the returned flag records whether the
loop terminated by an escaped exception. -/
def start_rotation (st : ManagerState) : List (Except Unit Gen) → ManagerState × Bool
  | [] => (st, false)
  | r :: rest =>
    match generate_keys st r with
    | .ok st' => start_rotation st' rest
    | .error _ => (st, true)

/-- A run of successful rotations (the states visited by `generate_keys`
on ticks whose key generation succeeds). -/
def runRotations (st : ManagerState) (gs : List Gen) : ManagerState :=
  gs.foldl applyGen st

/-! ### JWKS publication (`get_public_jwk`, `_key_to_jwk`) -/

/-- One JWK entry as rendered by `_key_to_jwk`.  The modulus and exponent
fields carry the abstract key identity and the fixed public exponent
65537; the base64url rendering of their big-endian bytes is outside the
abstraction boundary of the key material. -/
structure JwkEntry where
  kty : String
  alg : String
  use : String
  kid : Kid
  n : Nat
  e : Nat
deriving DecidableEq

/-- `_key_to_jwk`. -/
def _key_to_jwk (key : Nat) (kid : Kid) : JwkEntry :=
  { kty := "RSA", alg := "RS256", use := "sig", kid := kid, n := key, e := 65537 }

/-- `get_public_jwk`: raises (`.error`) if the current key or kid is unset
(Python truthiness: an empty kid string is falsy); renders the current
entry, then appends the previous entry when both previous fields are
truthy. -/
def get_public_jwk (st : ManagerState) : Except Unit (List JwkEntry) :=
  match st.current with
  | none => .error ()
  | some c =>
    if c.2 = [] then .error ()
    else .ok ([_key_to_jwk c.1 c.2] ++
      match st.previous with
      | some p => if p.2 = [] then [] else [_key_to_jwk p.1 p.2]
      | none => [])

/-! ### Tokens and PyJWT decode (`jwt_helper.py`) -/

/-- A parsed JWT as `create_signed_jwt` produces and `verify_signed_jwt`
consumes: the header's `alg` and optional `kid`, the abstract identity of
the key pair whose private half signed it, and the payload. -/
structure Token where
  alg : String
  kid : Option Kid
  sigKey : Nat
  payload : JDict
deriving DecidableEq

/-- A token string on the wire: either structurally malformed (so
`jwt.get_unverified_header` raises `InvalidTokenError`) or parseable. -/
inductive Wire where
  | malformed
  | good (tok : Token)

/-- The PyJWT exception classes distinguished by `verify_signed_jwt`'s
handlers: `ExpiredSignatureError`, `InvalidSignatureError`,
`InvalidAudienceError`, `InvalidIssuerError`, and every other
`InvalidTokenError` (bad algorithm, non-integer timestamp claims, missing
required `iss`/`aud` claims, ...). -/
inductive JwtErr where
  | expired
  | sigErr
  | audErr
  | issErr
  | other
deriving DecidableEq

/-- PyJWT `_validate_iat` (`verify_iat` is on): if an `iat` claim is
present it must be an integer, else `InvalidIssuedAtError` (a plain
`InvalidTokenError` to the caller's handlers). -/
def checkIat (p : JDict) : Option JwtErr :=
  match dictGet p "iat" with
  | some (.str _) => some .other
  | _ => none

/-- PyJWT `_validate_exp` (`verify_exp` is on, leeway 0): if an `exp`
claim is present it must be an integer, and `exp <= now` raises
`ExpiredSignatureError`. -/
def checkExp (p : JDict) (now : Nat) : Option JwtErr :=
  match dictGet p "exp" with
  | some (.num e) => if e ≤ now then some .expired else none
  | some (.str _) => some .other
  | none => none

/-- PyJWT `_validate_iss` with `issuer="face-service"`: a missing `iss`
claim raises `MissingRequiredClaimError` (plain `InvalidTokenError`), a
mismatch raises `InvalidIssuerError`. -/
def checkIss (p : JDict) : Option JwtErr :=
  match dictGet p "iss" with
  | none => some .other
  | some v => if v = .str "face-service" then none else some .issErr

/-- PyJWT `_validate_aud` with `audience="core-service"`: a missing `aud`
claim raises `MissingRequiredClaimError`, a mismatch raises
`InvalidAudienceError`. -/
def checkAud (p : JDict) : Option JwtErr :=
  match dictGet p "aud" with
  | none => some .other
  | some v => if v = .str "core-service" then none else some .audErr

/-- `jwt.decode(token, public_pem, algorithms=["RS256"], audience="core-service",
issuer="face-service", options={all verifications on})` against one public
key, in PyJWT's check order: header algorithm against the allow-list,
then the signature, then the registered claims. -/
def jwtDecode (tok : Token) (pubKey : Nat) (now : Nat) : Except JwtErr JDict :=
  if tok.alg ≠ "RS256" then .error .other
  else if tok.sigKey ≠ pubKey then .error .sigErr
  else
    match checkIat tok.payload with
    | some e => .error e
    | none =>
      match checkExp tok.payload now with
      | some e => .error e
      | none =>
        match checkIss tok.payload with
        | some e => .error e
        | none =>
          match checkAud tok.payload with
          | some e => .error e
          | none => .ok tok.payload

/-- `create_signed_jwt`: reads the private PEM and current kid (each
raises `RuntimeError` if the store is uninitialized, and `get_current_kid`
also raises on a falsy kid), stamps the payload, and signs with RS256
carrying the kid in the header. -/
def create_signed_jwt (claims : JDict) (ttl now : Nat) (st : ManagerState) : Except Unit Token :=
  match st.current with
  | none => .error ()
  | some c =>
    if c.2 = [] then .error ()
    else .ok { alg := "RS256", kid := some c.2, sigKey := c.1, payload := buildPayload claims now ttl }

/-- The candidate list before sorting:
`[(get_public_pem(), get_current_kid())]`, appending the previous pair
when `get_previous_public_pem()` and `get_previous_kid()` are both truthy
(a PEM is always truthy when present; an empty kid string is falsy). -/
def candidateKeys (cur : KeyEntry) (prev : Option KeyEntry) : List KeyEntry :=
  [cur] ++
    match prev with
    | some p => if p.2 = [] then [] else [p]
    | none => []

/-- The candidate list `verify_signed_jwt` iterates:
`if token_kid: keys_to_try.sort(key=lambda x: x[1] != token_kid)` — a
stable sort on a boolean key, which moves the kid-matching candidates to
the front preserving relative order; skipped when the header has no kid
or a falsy (empty) kid. -/
def keysToTry (cur : KeyEntry) (prev : Option KeyEntry) (tokKid : Option Kid) : List KeyEntry :=
  let ks := candidateKeys cur prev
  match tokKid with
  | none => ks
  | some k =>
    if k = [] then ks
    else ks.filter (fun e => e.2 == k) ++ ks.filter (fun e => !(e.2 == k))

/-- The `for public_pem, key_kid in keys_to_try:` loop of
`verify_signed_jwt`: success returns the decoded payload;
`ExpiredSignatureError` returns `None` without trying further keys;
signature/audience/issuer mismatches fall through to the next key; any
other `InvalidTokenError` returns `None`; an exhausted list returns
`None`. -/
def tryKeys (tok : Token) (now : Nat) : List KeyEntry → Option JDict
  | [] => none
  | e :: rest =>
    match jwtDecode tok e.1 now with
    | .ok d => some d
    | .error .expired => none
    | .error .sigErr => tryKeys tok now rest
    | .error .audErr => tryKeys tok now rest
    | .error .issErr => tryKeys tok now rest
    | .error .other => none

/-- `verify_signed_jwt`: parse the header first (malformed ⇒ `None`), then
read the key material (`get_public_pem`/`get_current_kid` raise
`RuntimeError` — the outer `.error` — on an uninitialized store, and such
an exception is not an `InvalidTokenError`, so it propagates), then run
the candidate loop. -/
def verify_signed_jwt (st : ManagerState) (now : Nat) (w : Wire) : Except Unit (Option JDict) :=
  match w with
  | .malformed => .ok none
  | .good tok =>
    match st.current with
    | none => .error ()
    | some cur =>
      if cur.2 = [] then .error ()
      else .ok (tryKeys tok now (keysToTry cur st.previous tok.kid))

/-! ### Lock discipline of the accessors (`rsa_keys.py`) -/

/-- Primitive actions a method body performs on the shared store: lock
acquisition/release (`with self._lock:`) and field reads/writes. -/
inductive LockAction where
  | acquire
  | release
  | readField (f : String)
  | writeField (f : String)
deriving DecidableEq

/-- Body of `get_private_key`: `with self._lock:` guard around the `None`
check and the return. -/
def get_private_key_actions : List LockAction :=
  [.acquire, .readField "_current_private_key", .readField "_current_private_key", .release]

/-- Body of `get_private_pem`: the `None` check and the
`private_bytes(...)` serialisation, with no `with self._lock:` block. -/
def get_private_pem_actions : List LockAction :=
  [.readField "_current_private_key", .readField "_current_private_key"]

/-- Body of `get_public_pem`. -/
def get_public_pem_actions : List LockAction :=
  [.acquire, .readField "_current_public_key", .readField "_current_public_key", .release]

/-- Body of `get_previous_public_pem`. -/
def get_previous_public_pem_actions : List LockAction :=
  [.acquire, .readField "_previous_public_key", .readField "_previous_public_key", .release]

/-- Body of `get_current_kid`. -/
def get_current_kid_actions : List LockAction :=
  [.acquire, .readField "_current_kid", .readField "_current_kid", .release]

/-- Body of `get_previous_kid`. -/
def get_previous_kid_actions : List LockAction :=
  [.acquire, .readField "_previous_kid", .release]

/-- Body of `get_public_jwk`. -/
def get_public_jwk_actions : List LockAction :=
  [.acquire, .readField "_current_public_key", .readField "_current_kid",
   .readField "_current_public_key", .readField "_current_kid",
   .readField "_previous_public_key", .readField "_previous_kid",
   .readField "_previous_public_key", .readField "_previous_kid", .release]

/-- Body of `generate_keys`. -/
def generate_keys_actions : List LockAction :=
  [.acquire, .readField "_current_public_key",
   .writeField "_previous_public_key", .writeField "_previous_kid",
   .writeField "_current_private_key", .writeField "_current_public_key",
   .writeField "_current_kid", .writeField "_last_rotation", .release]

/-- A body executes under the store's mutual-exclusion lock when it opens
by acquiring the lock and closes by releasing it. -/
def underLock (acts : List LockAction) : Bool :=
  acts.head? == some .acquire && acts.getLast? == some .release

/-! ### Dictionary lemmas -/

theorem dictGet_dictSet (d : JDict) (k k' : String) (v : JVal) :
    dictGet (dictSet d k v) k' = if k' = k then some v else dictGet d k' := by
  induction d with
  | nil => simp [dictSet, dictGet]
  | cons hd tl ih =>
    obtain ⟨a, b⟩ := hd
    have hstep : dictSet ((a, b) :: tl) k v = (a, b) :: dictSet tl k v := by
      simp [dictSet]
    rw [hstep]
    simp only [dictGet]
    rw [ih]
    by_cases hk : k' = k
    · simp [hk]
    · simp [hk, dictGet]

theorem buildPayload_iss (claims : JDict) (now ttl : Nat) :
    dictGet (buildPayload claims now ttl) "iss" = some (.str "face-service") := by
  simp [buildPayload, dictGet_dictSet]

theorem buildPayload_aud (claims : JDict) (now ttl : Nat) :
    dictGet (buildPayload claims now ttl) "aud" = some (.str "core-service") := by
  simp [buildPayload, dictGet_dictSet]

theorem buildPayload_iat (claims : JDict) (now ttl : Nat) :
    dictGet (buildPayload claims now ttl) "iat" = some (.num now) := by
  simp [buildPayload, dictGet_dictSet]

theorem buildPayload_exp (claims : JDict) (now ttl : Nat) :
    dictGet (buildPayload claims now ttl) "exp" = some (.num (now + ttl * 60)) := by
  simp [buildPayload, dictGet_dictSet]

theorem buildPayload_other (claims : JDict) (now ttl : Nat) (k : String)
    (h1 : k ≠ "iss") (h2 : k ≠ "aud") (h3 : k ≠ "iat") (h4 : k ≠ "exp") :
    dictGet (buildPayload claims now ttl) k = dictGet claims k := by
  simp [buildPayload, dictGet_dictSet, h1, h2, h3, h4]

/-! ### Kid injectivity machinery -/

theorem digitsVal_fixedLE (b w n : Nat) :
    digitsVal b (fixedLE b w n) = n % b ^ w := by
  induction w generalizing n with
  | zero => simp [fixedLE, digitsVal, Nat.mod_one]
  | succ w ih =>
    simp only [fixedLE, digitsVal, ih]
    rw [pow_succ']
    exact (Nat.mod_mul).symm

theorem fixedLE_length (b w n : Nat) : (fixedLE b w n).length = w := by
  induction w generalizing n with
  | zero => rfl
  | succ w ih => simp [fixedLE, ih]

theorem fixedLE_lt (b w n : Nat) (hb : 0 < b) : ∀ d ∈ fixedLE b w n, d < b := by
  induction w generalizing n with
  | zero => intro d hd; simp [fixedLE] at hd
  | succ w ih =>
    intro d hd
    simp only [fixedLE, List.mem_cons] at hd
    rcases hd with h | h
    · exact h ▸ Nat.mod_lt _ hb
    · exact ih _ d h

theorem fixedLE_inj (b w n1 n2 : Nat) (h1 : n1 < b ^ w) (h2 : n2 < b ^ w)
    (h : fixedLE b w n1 = fixedLE b w n2) : n1 = n2 := by
  have := congrArg (digitsVal b) h
  rw [digitsVal_fixedLE, digitsVal_fixedLE, Nat.mod_eq_of_lt h1, Nat.mod_eq_of_lt h2] at this
  exact this

theorem fixedBE_length (b w n : Nat) : (fixedBE b w n).length = w := by
  simp [fixedBE, fixedLE_length]

theorem fixedBE_lt (b w n : Nat) (hb : 0 < b) : ∀ d ∈ fixedBE b w n, d < b := by
  intro d hd
  exact fixedLE_lt b w n hb d (List.mem_reverse.mp hd)

theorem fixedBE_inj (b w n1 n2 : Nat) (h1 : n1 < b ^ w) (h2 : n2 < b ^ w)
    (h : fixedBE b w n1 = fixedBE b w n2) : n1 = n2 :=
  fixedLE_inj b w n1 n2 h1 h2 (List.reverse_injective h)

theorem digitCode_inj (d1 d2 : Nat) (h1 : d1 < 16) (h2 : d2 < 16)
    (h : digitCode d1 = digitCode d2) : d1 = d2 := by
  simp only [digitCode] at h
  split at h <;> split at h <;> omega

theorem map_digitCode_inj : ∀ (l1 l2 : List Nat), (∀ d ∈ l1, d < 16) → (∀ d ∈ l2, d < 16) →
    l1.map digitCode = l2.map digitCode → l1 = l2 := by
  intro l1
  induction l1 with
  | nil =>
    intro l2 _ _ h
    cases l2 with
    | nil => rfl
    | cons b bs => simp at h
  | cons a as ih =>
    intro l2 hl1 hl2 h
    cases l2 with
    | nil => simp at h
    | cons b bs =>
      simp only [List.map_cons, List.cons.injEq] at h
      have ha : a = b := digitCode_inj a b (hl1 a (by simp)) (hl2 b (by simp)) h.1
      have hs : as = bs := ih bs (fun d hd => hl1 d (by simp [hd])) (fun d hd => hl2 d (by simp [hd])) h.2
      rw [ha, hs]

theorem _generate_kid_inj (t1 r1 t2 r2 : Nat)
    (ht1 : t1 < 10 ^ 14) (hr1 : r1 < 16 ^ 8) (ht2 : t2 < 10 ^ 14) (hr2 : r2 < 16 ^ 8)
    (h : _generate_kid t1 r1 = _generate_kid t2 r2) : t1 = t2 ∧ r1 = r2 := by
  simp only [_generate_kid, List.append_assoc] at h
  have h1 := List.append_cancel_left h
  have hlen : ((fixedBE 10 14 t1).map digitCode).length = ((fixedBE 10 14 t2).map digitCode).length := by
    simp [fixedBE_length]
  obtain ⟨hdec, hrest⟩ := List.append_inj h1 hlen
  have hhex : (fixedBE 16 8 r1).map digitCode = (fixedBE 16 8 r2).map digitCode := by
    have := List.append_cancel_left hrest
    exact this
  have hd10 : ∀ n, ∀ d ∈ fixedBE 10 14 n, d < 16 := by
    intro n d hd
    have := fixedBE_lt 10 14 n (by norm_num) d hd
    omega
  have hd16 : ∀ n, ∀ d ∈ fixedBE 16 8 n, d < 16 :=
    fun n => fixedBE_lt 16 8 n (by norm_num)
  constructor
  · exact fixedBE_inj 10 14 t1 t2 ht1 ht2
      (map_digitCode_inj _ _ (hd10 t1) (hd10 t2) hdec)
  · exact fixedBE_inj 16 8 r1 r2 hr1 hr2
      (map_digitCode_inj _ _ (hd16 r1) (hd16 r2) hhex)

theorem _generate_kid_ne_nil (ts rand : Nat) : _generate_kid ts rand ≠ [] := by
  simp [_generate_kid, faceLabel]

/-! ### Rotation-run characterization -/

theorem runRotations_concat (st : ManagerState) (gs : List Gen) (g : Gen) :
    runRotations st (gs ++ [g]) = applyGen (runRotations st gs) g := by
  simp [runRotations, List.foldl_append]

theorem runRotations_eq (gs : List Gen) (c : KeyEntry) (p : Option KeyEntry) :
    runRotations ⟨some c, p⟩ gs =
      ⟨some ((gs.getLast?.map pairOf).getD c),
       if gs = [] then p else some ((gs.dropLast.getLast?.map pairOf).getD c)⟩ := by
  induction gs using List.reverseRecOn with
  | nil => simp [runRotations]
  | append_singleton xs x ih =>
    rw [runRotations_concat, ih]
    have hne : xs ++ [x] ≠ [] := by simp
    simp [applyGen, hne, pairOf]

theorem start_rotation_current_isSome (outs : List (Except Unit Gen)) :
    ∀ st : ManagerState, st.current.isSome →
      ((start_rotation st outs).1).current.isSome := by
  induction outs with
  | nil => intro st h; exact h
  | cons r rest ih =>
    intro st h
    cases r with
    | error e => exact h
    | ok g =>
      simp only [start_rotation, generate_keys]
      exact ih (applyGen st g) (by simp [applyGen])

/-! ### Candidate list and verification loop lemmas -/

theorem keysToTry_none (cur : KeyEntry) (prev : Option KeyEntry) :
    keysToTry cur prev none = candidateKeys cur prev := rfl

theorem keysToTry_mem (cur : KeyEntry) (prev : Option KeyEntry) (kk : Option Kid) :
    ∀ e ∈ keysToTry cur prev kk, e ∈ candidateKeys cur prev := by
  intro e he
  cases kk with
  | none => exact he
  | some k =>
    simp only [keysToTry] at he
    split at he
    · exact he
    · rcases List.mem_append.mp he with h | h
      · exact List.mem_of_mem_filter h
      · exact List.mem_of_mem_filter h

theorem keysToTry_matching_first (cur : KeyEntry) (prev : Option KeyEntry) (k : Kid)
    (hk : k ≠ []) (e : KeyEntry) (he : e ∈ candidateKeys cur prev) (hkid : e.2 = k) :
    ∃ e' rest, keysToTry cur prev (some k) = e' :: rest ∧ e'.2 = k := by
  have hmem : e ∈ (candidateKeys cur prev).filter (fun x => x.2 == k) := by
    rw [List.mem_filter]
    exact ⟨he, by simp [hkid]⟩
  have hne : (candidateKeys cur prev).filter (fun x => x.2 == k) ≠ [] := by
    intro hnil
    rw [hnil] at hmem
    simp at hmem
  obtain ⟨hd, tl, heq⟩ := List.exists_cons_of_ne_nil hne
  have hhd : hd ∈ (candidateKeys cur prev).filter (fun x => x.2 == k) := by
    rw [heq]; simp
  have hhdk : hd.2 = k := by
    have := (List.mem_filter.mp hhd).2
    simpa using this
  refine ⟨hd, tl ++ ((candidateKeys cur prev).filter (fun x => !(x.2 == k))), ?_, hhdk⟩
  simp only [keysToTry, hk, if_neg]
  rw [heq]
  simp

theorem keysToTry_no_match (cur : KeyEntry) (prev : Option KeyEntry) (k : Kid)
    (h : ∀ e ∈ candidateKeys cur prev, e.2 ≠ k) :
    keysToTry cur prev (some k) = candidateKeys cur prev := by
  simp only [keysToTry]
  split
  · rfl
  · have h1 : (candidateKeys cur prev).filter (fun x => x.2 == k) = [] := by
      rw [List.filter_eq_nil_iff]
      intro a ha
      simp [h a ha]
    have h2 : (candidateKeys cur prev).filter (fun x => !(x.2 == k)) = candidateKeys cur prev := by
      rw [List.filter_eq_self]
      intro a ha
      simp [h a ha]
    rw [h1, h2]
    rfl

theorem keysToTry_self_first (cur : KeyEntry) (prev : Option KeyEntry) :
    ∃ rest, keysToTry cur prev (some cur.2) = cur :: rest := by
  simp only [keysToTry, candidateKeys]
  split
  · exact ⟨_, rfl⟩
  · rw [List.singleton_append, List.filter_cons_of_pos (by simp), List.cons_append]
    exact ⟨_, rfl⟩

theorem tryKeys_nil (tok : Token) (now : Nat) : tryKeys tok now [] = none := rfl

theorem tryKeys_cons_ok (tok : Token) (now : Nat) (e : KeyEntry) (rest : List KeyEntry)
    (d : JDict) (h : jwtDecode tok e.1 now = .ok d) :
    tryKeys tok now (e :: rest) = some d := by
  simp [tryKeys, h]

theorem tryKeys_cons_expired (tok : Token) (now : Nat) (e : KeyEntry) (rest : List KeyEntry)
    (h : jwtDecode tok e.1 now = .error .expired) :
    tryKeys tok now (e :: rest) = none := by
  simp [tryKeys, h]

theorem tryKeys_cons_fallthrough (tok : Token) (now : Nat) (e : KeyEntry) (rest : List KeyEntry)
    (h : jwtDecode tok e.1 now = .error .sigErr ∨ jwtDecode tok e.1 now = .error .audErr ∨
         jwtDecode tok e.1 now = .error .issErr) :
    tryKeys tok now (e :: rest) = tryKeys tok now rest := by
  rcases h with h | h | h <;> simp [tryKeys, h]

theorem tryKeys_all_sigErr (tok : Token) (now : Nat) :
    ∀ l : List KeyEntry, (∀ e ∈ l, jwtDecode tok e.1 now = .error .sigErr) →
      tryKeys tok now l = none := by
  intro l
  induction l with
  | nil => intro _; rfl
  | cons e rest ih =>
    intro h
    rw [tryKeys_cons_fallthrough tok now e rest (Or.inl (h e (by simp)))]
    exact ih (fun x hx => h x (by simp [hx]))

deriving instance DecidableEq for Except

theorem mem_of_getLast?_eq (l : List Gen) (a : Gen) (h : l.getLast? = some a) : a ∈ l := by
  have hmem : a ∈ l.getLast? := by rw [h]; rfl
  obtain ⟨hne, heq⟩ := List.mem_getLast?_eq_getLast hmem
  exact heq ▸ List.getLast_mem hne

/-- C10: for every caller-supplied claims mapping — including one that itself
binds `"iss"`, `"aud"`, `"iat"` or `"exp"` — the payload built by
`create_signed_jwt` carries the service's fixed `iss="face-service"`,
`aud="core-service"`, `iat=now` and `exp=now+ttl` values: the injected
bindings are applied after the spread of the caller's dict and therefore
shadow any caller-supplied values for those keys. -/
theorem c10_injected_claims_override (claims : JDict) (now ttl : Nat) :
    dictGet (buildPayload claims now ttl) "iss" = some (.str "face-service") ∧
    dictGet (buildPayload claims now ttl) "aud" = some (.str "core-service") ∧
    dictGet (buildPayload claims now ttl) "iat" = some (.num now) ∧
    dictGet (buildPayload claims now ttl) "exp" = some (.num (now + ttl * 60)) :=
  ⟨buildPayload_iss claims now ttl, buildPayload_aud claims now ttl,
   buildPayload_iat claims now ttl, buildPayload_exp claims now ttl⟩

/-- C3: for every token whose expiry check fails against the first candidate
key tried (`jwt.decode` raises `ExpiredSignatureError` on the head of the
candidate list), `verify_signed_jwt` returns invalid immediately: the result
is `None` for every possible remainder of the candidate list, so no further
candidate is attempted. -/
theorem c3_expired_stops_immediately (st : ManagerState) (cur : KeyEntry)
    (now : Nat) (tok : Token) (e : KeyEntry) (rest : List KeyEntry)
    (hcur : st.current = some cur) (hkid : cur.2 ≠ [])
    (hlist : keysToTry cur st.previous tok.kid = e :: rest)
    (hexp : jwtDecode tok e.1 now = .error .expired) :
    verify_signed_jwt st now (.good tok) = .ok none := by
  simp only [verify_signed_jwt, hcur]
  rw [if_neg hkid, hlist, tryKeys_cons_expired _ _ _ _ hexp]

/-- Witness for C3: a concrete token whose `exp` claim is in the past is
rejected with the single live key as first (and only) candidate. -/
theorem c3_expired_instance :
    verify_signed_jwt ⟨some (7, [107]), none⟩ 5
      (.good { alg := "RS256", kid := none, sigKey := 7, payload := [("exp", JVal.num 0)] }) =
      .ok none :=
  c3_expired_stops_immediately ⟨some (7, [107]), none⟩ (7, [107]) 5
    { alg := "RS256", kid := none, sigKey := 7, payload := [("exp", JVal.num 0)] }
    (7, [107]) [] rfl (by decide) (by decide) (by decide)

/-- C4: for every token with a parseable header, `verify_signed_jwt` tries
candidates in this order: a candidate whose kid equals the header's kid comes
first when one matches; otherwise (no kid in the header, or no candidate
matching it) the natural current-then-previous order is kept.  A signature,
audience or issuer mismatch on one candidate makes the loop proceed to the
next candidate, and once every candidate has been tried without success the
result is invalid (`None`). -/
theorem c4_candidate_order_and_fallback :
    (∀ (cur : KeyEntry) (prev : Option KeyEntry) (k : Kid), k ≠ [] →
      ∀ e ∈ candidateKeys cur prev, e.2 = k →
        ∃ e' rest, keysToTry cur prev (some k) = e' :: rest ∧ e'.2 = k) ∧
    (∀ (cur : KeyEntry) (prev : Option KeyEntry) (k : Kid),
      (∀ e ∈ candidateKeys cur prev, e.2 ≠ k) →
        keysToTry cur prev (some k) = candidateKeys cur prev) ∧
    (∀ (cur : KeyEntry) (prev : Option KeyEntry),
      keysToTry cur prev none = candidateKeys cur prev) ∧
    (∀ (tok : Token) (now : Nat) (e : KeyEntry) (rest : List KeyEntry),
      (jwtDecode tok e.1 now = .error .sigErr ∨ jwtDecode tok e.1 now = .error .audErr ∨
       jwtDecode tok e.1 now = .error .issErr) →
      tryKeys tok now (e :: rest) = tryKeys tok now rest) ∧
    (∀ (tok : Token) (now : Nat), tryKeys tok now [] = none) :=
  ⟨fun cur prev k hk e he hkid => keysToTry_matching_first cur prev k hk e he hkid,
   keysToTry_no_match, keysToTry_none, tryKeys_cons_fallthrough, tryKeys_nil⟩

/-- Witness for C4: the kid-matching previous candidate is moved to the
front; a non-matching kid keeps natural order; a header without kid keeps
natural order; a signature mismatch falls through to the next candidate; an
exhausted candidate list yields invalid. -/
theorem c4_fallback_instance :
    (∃ e' rest, keysToTry (0, [49]) (some (1, [50])) (some [50]) = e' :: rest ∧ e'.2 = [50]) ∧
    keysToTry (0, [49]) (some (1, [50])) (some [51]) = candidateKeys (0, [49]) (some (1, [50])) ∧
    keysToTry (0, [49]) (some (1, [50])) none = candidateKeys (0, [49]) (some (1, [50])) ∧
    tryKeys { alg := "RS256", kid := none, sigKey := 5, payload := [] } 0 [(0, [49]), (1, [50])] =
      tryKeys { alg := "RS256", kid := none, sigKey := 5, payload := [] } 0 [(1, [50])] ∧
    tryKeys { alg := "RS256", kid := none, sigKey := 5, payload := [] } 0 [] = none :=
  ⟨c4_candidate_order_and_fallback.1 (0, [49]) (some (1, [50])) [50] (by decide)
      (1, [50]) (by decide) rfl,
   c4_candidate_order_and_fallback.2.1 (0, [49]) (some (1, [50])) [51] (by decide),
   c4_candidate_order_and_fallback.2.2.1 (0, [49]) (some (1, [50])),
   c4_candidate_order_and_fallback.2.2.2.1 _ 0 (0, [49]) [(1, [50])] (Or.inl (by decide)),
   c4_candidate_order_and_fallback.2.2.2.2 _ 0⟩

/-- C5: a successful `generate_keys` on a state holding a current key-pair
sets `previous` to the old current pair (whatever previously occupied
`previous` is discarded — the result does not depend on it), sets `current`
to the freshly generated pair carrying the kid generated for this tick, and
along any rotation run started from an initialized store the state never
holds zero current key-pairs.  The store's two fields hold at most one
previous pair by construction. -/
theorem c5_rotate_state_shape :
    (∀ (st : ManagerState) (c : KeyEntry) (g : Gen), st.current = some c →
      (applyGen st g).previous = some c ∧
      (applyGen st g).current = some (g.key, _generate_kid g.ts g.rand)) ∧
    (∀ (g0 : Gen) (outs : List (Except Unit Gen)),
      ((start_rotation (initState g0) outs).1).current.isSome = true) := by
  constructor
  · intro st c g hc
    exact ⟨by simp [applyGen, hc], rfl⟩
  · intro g0 outs
    exact start_rotation_current_isSome outs (initState g0) (by simp [initState, applyGen])

/-- Witness for C5: a concrete rotation pushes the old current pair into
`previous`, installs the fresh pair, and a failing tick still leaves a
current key present. -/
theorem c5_rotate_instance :
    (applyGen ⟨some (3, [107]), some (9, [106])⟩ ⟨4, 1, 2⟩).previous = some (3, [107]) ∧
    (applyGen ⟨some (3, [107]), some (9, [106])⟩ ⟨4, 1, 2⟩).current = some (4, _generate_kid 1 2) ∧
    ((start_rotation (initState ⟨0, 0, 0⟩) [Except.error ()]).1).current.isSome = true := by
  obtain ⟨h1, h2⟩ := c5_rotate_state_shape.1 ⟨some (3, [107]), some (9, [106])⟩ (3, [107]) ⟨4, 1, 2⟩ rfl
  exact ⟨h1, h2, c5_rotate_state_shape.2 ⟨0, 0, 0⟩ [Except.error ()]⟩

/-- C6 is REFUTED by the code: `get_private_pem` — named by the claim as one
of the read accessors executing under the store's lock — reads and
serialises `_current_private_key` with no `with self._lock:` block, while
every other accessor of the claim (and `generate_keys`) is lock-wrapped.
This is a slip in the code: the sibling accessor `get_private_key` guards
the very same field with the lock. -/
theorem c6_private_pem_reads_outside_lock :
    underLock get_private_pem_actions = false ∧
    underLock get_private_key_actions = true ∧
    underLock get_public_pem_actions = true ∧
    underLock get_previous_public_pem_actions = true ∧
    underLock get_current_kid_actions = true ∧
    underLock get_previous_kid_actions = true ∧
    underLock get_public_jwk_actions = true ∧
    underLock generate_keys_actions = true := by
  decide

/-- C7, counterexample: the claim says a failed key-generation tick leaves
the rotation loop running to retry on the next interval.  On the code, a
tick whose generation step raises terminates `start_rotation` (the loop
body has no exception handler): with outcomes `[failure, success]` the loop
dies at the failure (flag `true`) and never processes the following
successful tick — the state is still the initial one. -/
theorem c7_failed_tick_kills_loop_counterexample :
    (start_rotation (initState ⟨0, 1, 2⟩) [Except.error (), Except.ok ⟨1, 3, 4⟩]).2 = true ∧
    (start_rotation (initState ⟨0, 1, 2⟩) [Except.error (), Except.ok ⟨1, 3, 4⟩]).1 =
      initState ⟨0, 1, 2⟩ := by
  decide

/-- C7, amended: if key generation fails during a rotation tick, the
exception escapes the loop and the rotation task terminates (no retry on a
later interval — the remaining ticks are ignored), but the current and
previous key-pairs are unchanged by the failed tick, since the failure is
raised before any field is written. -/
theorem c7_failed_tick_terminates_loop_state_unchanged
    (st : ManagerState) (rest : List (Except Unit Gen)) :
    start_rotation st (Except.error () :: rest) = (st, true) := rfl

theorem checkIat_buildPayload (claims : JDict) (now ttl : Nat) :
    checkIat (buildPayload claims now ttl) = none := by
  simp [checkIat, buildPayload_iat]

theorem checkExp_buildPayload (claims : JDict) (now ttl nowV : Nat)
    (h : nowV < now + ttl * 60) :
    checkExp (buildPayload claims now ttl) nowV = none := by
  unfold checkExp
  rw [buildPayload_exp]
  simp only []
  rw [if_neg (by omega)]

theorem checkIss_buildPayload (claims : JDict) (now ttl : Nat) :
    checkIss (buildPayload claims now ttl) = none := by
  simp [checkIss, buildPayload_iss]

theorem checkAud_buildPayload (claims : JDict) (now ttl : Nat) :
    checkAud (buildPayload claims now ttl) = none := by
  simp [checkAud, buildPayload_aud]

theorem jwtDecode_issued_ok (claims : JDict) (now ttl nowV : Nat) (kid : Option Kid) (key : Nat)
    (h : nowV < now + ttl * 60) :
    jwtDecode { alg := "RS256", kid := kid, sigKey := key, payload := buildPayload claims now ttl }
      key nowV = .ok (buildPayload claims now ttl) := by
  simp [jwtDecode, checkIat_buildPayload, checkExp_buildPayload claims now ttl nowV h,
    checkIss_buildPayload, checkAud_buildPayload]

theorem jwtDecode_wrong_key_sigErr (tok : Token) (pubKey nowV : Nat)
    (halg : tok.alg = "RS256") (hkey : tok.sigKey ≠ pubKey) :
    jwtDecode tok pubKey nowV = .error .sigErr := by
  simp [jwtDecode, halg, hkey]

/-- C1: for every caller-supplied claims mapping and positive ttl, the token
produced by `create_signed_jwt` with the store's current key and immediately
passed to `verify_signed_jwt` yields a decoded payload — not invalid — equal
to the supplied claims plus the injected `iss="face-service"`,
`aud="core-service"`, `iat=now` and `exp=now+ttl` fields: lookups of the
four injected keys give the injected values and lookups of every other key
give the caller's value. -/
theorem c1_issue_verify_round_trip (claims : JDict) (ttl now : Nat)
    (st : ManagerState) (c : KeyEntry)
    (hcur : st.current = some c) (hkid : c.2 ≠ []) (httl : 0 < ttl) :
    ∃ tok, create_signed_jwt claims ttl now st = .ok tok ∧
      verify_signed_jwt st now (.good tok) = .ok (some (buildPayload claims now ttl)) ∧
      dictGet (buildPayload claims now ttl) "iss" = some (.str "face-service") ∧
      dictGet (buildPayload claims now ttl) "aud" = some (.str "core-service") ∧
      dictGet (buildPayload claims now ttl) "iat" = some (.num now) ∧
      dictGet (buildPayload claims now ttl) "exp" = some (.num (now + ttl * 60)) ∧
      ∀ k, k ≠ "iss" → k ≠ "aud" → k ≠ "iat" → k ≠ "exp" →
        dictGet (buildPayload claims now ttl) k = dictGet claims k := by
  refine ⟨{ alg := "RS256", kid := some c.2, sigKey := c.1, payload := buildPayload claims now ttl },
    ?_, ?_, buildPayload_iss claims now ttl, buildPayload_aud claims now ttl,
    buildPayload_iat claims now ttl, buildPayload_exp claims now ttl,
    fun k h1 h2 h3 h4 => buildPayload_other claims now ttl k h1 h2 h3 h4⟩
  · simp [create_signed_jwt, hcur, hkid]
  · simp only [verify_signed_jwt, hcur]
    rw [if_neg hkid]
    obtain ⟨rest, hks⟩ := keysToTry_self_first c st.previous
    rw [hks, tryKeys_cons_ok _ _ _ _ _ (jwtDecode_issued_ok claims now ttl now (some c.2) c.1
      (by omega))]

/-- Witness for C1: a concrete issue-then-verify round trip on a store with
one live key returns exactly the stamped payload. -/
theorem c1_round_trip_instance :
    ∃ tok, create_signed_jwt [("sub", JVal.str "u1")] 5 100 ⟨some (7, [107]), none⟩ = .ok tok ∧
      verify_signed_jwt ⟨some (7, [107]), none⟩ 100 (.good tok) =
        .ok (some (buildPayload [("sub", JVal.str "u1")] 100 5)) ∧
      dictGet (buildPayload [("sub", JVal.str "u1")] 100 5) "iss" = some (.str "face-service") ∧
      dictGet (buildPayload [("sub", JVal.str "u1")] 100 5) "aud" = some (.str "core-service") ∧
      dictGet (buildPayload [("sub", JVal.str "u1")] 100 5) "iat" = some (.num 100) ∧
      dictGet (buildPayload [("sub", JVal.str "u1")] 100 5) "exp" = some (.num (100 + 5 * 60)) ∧
      ∀ k, k ≠ "iss" → k ≠ "aud" → k ≠ "iat" → k ≠ "exp" →
        dictGet (buildPayload [("sub", JVal.str "u1")] 100 5) k =
          dictGet [("sub", JVal.str "u1")] k :=
  c1_issue_verify_round_trip [("sub", JVal.str "u1")] 5 100 ⟨some (7, [107]), none⟩ (7, [107])
    rfl (by decide) (by decide)

/-- C8, counterexample: the claim — kids of distinct generation events of
one process lifetime are always distinct — fails when two distinct
generation events (here: distinct fresh keys 0 and 1) draw the same
generation second and the same `token_hex` suffix: the two kids coincide. -/
theorem c8_kid_collision_counterexample :
    ([⟨0, 1, 2⟩, ⟨1, 1, 2⟩] : List Gen).Nodup ∧
    ¬ (([⟨0, 1, 2⟩, ⟨1, 1, 2⟩] : List Gen).map (fun g => _generate_kid g.ts g.rand)).Nodup := by
  exact ⟨by decide, by decide⟩

/-- C8, amended: kids of distinct generation events are distinct provided
the events' (generation-timestamp, random-suffix) input pairs are distinct
— which holds whenever the ticks fall in different seconds or the 32-bit
suffix draws differ.  On the domain of real inputs (14-digit timestamps,
8-hex-digit suffixes) `_generate_kid` is injective. -/
theorem c8_kid_distinct_for_distinct_inputs (t1 r1 t2 r2 : Nat)
    (ht1 : t1 < 10 ^ 14) (hr1 : r1 < 16 ^ 8) (ht2 : t2 < 10 ^ 14) (hr2 : r2 < 16 ^ 8)
    (hne : (t1, r1) ≠ (t2, r2)) :
    _generate_kid t1 r1 ≠ _generate_kid t2 r2 := by
  intro h
  obtain ⟨ht, hr⟩ := _generate_kid_inj t1 r1 t2 r2 ht1 hr1 ht2 hr2 h
  exact hne (by rw [ht, hr])

/-- Witness for C8 (amended): two generations one second apart have
distinct kids. -/
theorem c8_kid_instance : _generate_kid 1 2 ≠ _generate_kid 3 2 :=
  c8_kid_distinct_for_distinct_inputs 1 2 3 2 (by decide) (by decide) (by decide) (by decide)
    (by decide)

/-- C2: a token issued while a key-pair was current and still unexpired at
verification time verifies successfully after exactly one rotation (its
signing key now sits in `previous` and, its kid matching the header, is
tried first), and fails verification after a second rotation has evicted
its signing key from the store.  The freshness of rotation is expressed as
hypotheses: the rotations install key material and kids distinct from the
token's (RSA generation never reproduces a key; cf. C8 for kids). -/
theorem c2_rotation_grace_then_eviction (claims : JDict) (ttl now nowV k0 : Nat)
    (kid0 : Kid) (st1 : ManagerState) (g1 g2 : Gen) (tok : Token)
    (hcur : st1.current = some (k0, kid0)) (hkid0 : kid0 ≠ [])
    (htok : create_signed_jwt claims ttl now st1 = .ok tok)
    (hfresh : nowV < now + ttl * 60)
    (hkid1 : _generate_kid g1.ts g1.rand ≠ kid0)
    (hk1 : g1.key ≠ k0) (hk2 : g2.key ≠ k0) :
    verify_signed_jwt (applyGen st1 g1) nowV (.good tok) =
      .ok (some (buildPayload claims now ttl)) ∧
    verify_signed_jwt (applyGen (applyGen st1 g1) g2) nowV (.good tok) = .ok none := by
  have htok' : tok = Token.mk "RS256" (some kid0) k0 (buildPayload claims now ttl) := by
    simp only [create_signed_jwt, hcur] at htok
    rw [if_neg hkid0] at htok
    exact (Except.ok.inj htok).symm
  subst htok'
  have hst2 : applyGen st1 g1 = ⟨some (pairOf g1), some (k0, kid0)⟩ := by
    simp [applyGen, hcur]
  have hg1kid : (pairOf g1).2 = _generate_kid g1.ts g1.rand := rfl
  constructor
  · -- after one rotation: the previous (matching-kid) key verifies the token
    have hkeys : keysToTry (pairOf g1) (some (k0, kid0)) (some kid0) =
        [(k0, kid0), pairOf g1] := by
      have h1 : (((pairOf g1).2 : Kid) == kid0) = false := by
        rw [hg1kid]
        exact beq_eq_false_iff_ne.mpr hkid1
      simp only [keysToTry, candidateKeys]
      rw [if_neg hkid0, if_neg hkid0]
      simp [List.filter, h1]
    rw [hst2]
    simp only [verify_signed_jwt]
    rw [if_neg (by rw [hg1kid]; exact _generate_kid_ne_nil g1.ts g1.rand)]
    rw [hkeys, tryKeys_cons_ok _ _ _ _ _
      (jwtDecode_issued_ok claims now ttl nowV (some kid0) k0 hfresh)]
  · -- after two rotations: the signing key is gone, every candidate mismatches
    have hst3 : applyGen (applyGen st1 g1) g2 = ⟨some (pairOf g2), some (pairOf g1)⟩ := by
      rw [hst2]
      simp [applyGen]
    have hprevne : (pairOf g1).2 ≠ [] := by
      rw [hg1kid]
      exact _generate_kid_ne_nil g1.ts g1.rand
    have hcand : candidateKeys (pairOf g2) (some (pairOf g1)) = [pairOf g2, pairOf g1] := by
      simp [candidateKeys, hprevne]
    have hall : ∀ e ∈ keysToTry (pairOf g2) (some (pairOf g1)) (some kid0),
        jwtDecode (Token.mk "RS256" (some kid0) k0 (buildPayload claims now ttl)) e.1 nowV =
          .error .sigErr := by
      intro e he
      have hmem := keysToTry_mem (pairOf g2) (some (pairOf g1)) (some kid0) e he
      rw [hcand] at hmem
      apply jwtDecode_wrong_key_sigErr _ _ _ rfl
      rcases List.mem_cons.mp hmem with h | h
      · rw [h]
        exact fun hc => hk2 hc.symm
      · rw [List.mem_singleton.mp h]
        exact fun hc => hk1 hc.symm
    rw [hst3]
    simp only [verify_signed_jwt]
    rw [if_neg (by exact _generate_kid_ne_nil g2.ts g2.rand)]
    rw [tryKeys_all_sigErr _ _ _ hall]

/-- Witness for C2: concrete store, one rotation keeps the token valid,
a second rotation invalidates it. -/
theorem c2_grace_instance :
    verify_signed_jwt (applyGen ⟨some (7, [107]), none⟩ ⟨8, 1, 2⟩) 0
      (.good { alg := "RS256", kid := some [107], sigKey := 7, payload := buildPayload [] 0 1 }) =
      .ok (some (buildPayload [] 0 1)) ∧
    verify_signed_jwt (applyGen (applyGen ⟨some (7, [107]), none⟩ ⟨8, 1, 2⟩) ⟨9, 3, 4⟩) 0
      (.good { alg := "RS256", kid := some [107], sigKey := 7, payload := buildPayload [] 0 1 }) =
      .ok none :=
  c2_rotation_grace_then_eviction [] 1 0 0 7 [107] ⟨some (7, [107]), none⟩ ⟨8, 1, 2⟩ ⟨9, 3, 4⟩
    { alg := "RS256", kid := some [107], sigKey := 7, payload := buildPayload [] 0 1 }
    rfl (by decide) (by decide) (by decide) (by decide) (by decide) (by decide)

/-- C9: on every store state reached from startup by successful rotations —
with the environment hypothesis that the kids generated over the lifetime
are pairwise distinct (cf. C8) — `get_public_jwk` succeeds and returns
exactly 1 entry when no rotation has happened yet, exactly 2 entries (one
for current, one for previous) once at least one rotation has happened,
and the entries carry pairwise distinct kids. -/
theorem c9_jwks_entry_counts (g0 : Gen) (gs : List Gen)
    (hnd : ((g0 :: gs).map (fun g => _generate_kid g.ts g.rand)).Nodup) :
    ∃ entries, get_public_jwk (runRotations (initState g0) gs) = .ok entries ∧
      entries.length = (if gs = [] then 1 else 2) ∧
      (entries.map JwkEntry.kid).Nodup := by
  have hinit : initState g0 = ⟨some (pairOf g0), none⟩ := by
    simp [initState, applyGen]
  rcases List.eq_nil_or_concat gs with hnil | ⟨gs', g, hconcat⟩
  · subst hnil
    refine ⟨[_key_to_jwk (pairOf g0).1 (pairOf g0).2], ?_, by simp, by simp⟩
    rw [hinit]
    simp [runRotations, get_public_jwk, _generate_kid_ne_nil g0.ts g0.rand, pairOf]
  · rw [List.concat_eq_append] at hconcat
    subst hconcat
    have hne : gs' ++ [g] ≠ ([] : List Gen) := by simp
    obtain ⟨g'', hg''mem, hg''eq⟩ :
        ∃ g'', g'' ∈ (g0 :: gs') ∧
          (gs'.getLast?.map pairOf).getD (pairOf g0) = pairOf g'' := by
      cases hgl : gs'.getLast? with
      | none => exact ⟨g0, by simp, rfl⟩
      | some g' =>
        exact ⟨g', List.mem_cons_of_mem _ (mem_of_getLast?_eq gs' g' hgl), rfl⟩
    have hstate : runRotations ⟨some (pairOf g0), none⟩ (gs' ++ [g]) =
        ⟨some (pairOf g), some (pairOf g'')⟩ := by
      rw [runRotations_eq]
      simp [hne, hg''eq]
    rw [hinit, hstate]
    refine ⟨[_key_to_jwk (pairOf g).1 (pairOf g).2, _key_to_jwk (pairOf g'').1 (pairOf g'').2],
      ?_, by simp [hne], ?_⟩
    · simp [get_public_jwk, _generate_kid_ne_nil, pairOf]
    · have hkid_ne : (pairOf g).2 ≠ (pairOf g'').2 := by
        intro heq
        have hnd' := hnd
        rw [show g0 :: (gs' ++ [g]) = (g0 :: gs') ++ [g] from by simp, List.map_append] at hnd'
        have hdisj := (List.nodup_append.mp hnd').2.2
        have hmem : _generate_kid g''.ts g''.rand ∈
            (g0 :: gs').map (fun x => _generate_kid x.ts x.rand) :=
          List.mem_map_of_mem _ hg''mem
        apply hdisj hmem
        simp only [List.map_cons, List.map_nil, List.mem_singleton]
        exact heq.symm
      simp [_key_to_jwk, hkid_ne]

/-- Witness for C9: startup plus one rotation with fresh inputs publishes a
two-entry key set with distinct kids. -/
theorem c9_jwks_instance :
    ∃ entries, get_public_jwk (runRotations (initState ⟨0, 1, 2⟩) [⟨1, 3, 4⟩]) = .ok entries ∧
      entries.length = 2 ∧ (entries.map JwkEntry.kid).Nodup := by
  obtain ⟨es, h1, h2, h3⟩ := c9_jwks_entry_counts ⟨0, 1, 2⟩ [⟨1, 3, 4⟩] (by decide)
  exact ⟨es, h1, by simpa using h2, h3⟩
